import Mathlib

/-!
# wish: a shallow embedding of `enunciado/wish.c`

The shell is embedded as pure state-passing functions.

* C strings are `String`s (one character stands for one byte); a `char *` that may be
  `NULL` is an `Option String`.
* The three growable arrays keep their `size`/`capacity` bookkeeping.  `cmd_t.args` and
  `cmd_list_t.commands` are the slot contents as written by the program (so the `NULL`
  stores of the tokenizer and of `run_external_cmd` are visible); `path_array_t.entries`
  is the live part `entries[0 .. size)` of the registry.
* The operating system is a record of oracles indexed by a clock that advances with every
  observable event, so that the file system, `fork` and the order in which children exit
  may change arbitrarily over time.
* A forked child is recorded in `ShellState.children` (the processes `wait` has not yet
  collected); what the child itself does is `child_main`.
* Loops whose C form is `while` over `strtok_r`/`fgets` recurse on a fuel argument that is
  set from the length of the remaining text; `*_fuel_enough` lemmas show that the fuel is
  never what ends them.
* The tokenizer of `start_shell` (lines 245-274) can step outside initialised, allocated
  memory: a `commands` slot added by `realloc` is read before anything was stored in it, and
  the terminator is stored at `args[size]` even when `size == capacity`.  `parse_undefined`
  says for which lines that happens; `segment_cmd` and `segment_loop` then describe the run
  in which the stray read yields `NULL` and the stray store does no harm.  Dispatch and
  await (lines 275-296, `run_line`) make no such access.
-/

namespace Wish

/-! ## Constants -/

def EXIT_SUCCESS : Nat := 0

def EXIT_FAILURE : Nat := 1

def INITIAL_CAPACITY : Nat := 2

def MAX_COMMAND_SIZE : Nat := 1024

/-- The generic message `"An error has occurred\n"`. -/
def GENERIC_ERROR : String := "An error has occurred\n"

/-! ## Data model -/

/-- The `path_array_t` struct: `entries` is the live part of the array, so `size` is its length. -/
structure path_array_t where
  entries : List String
  capacity : Nat
  deriving DecidableEq

/-- The `size` field of a `path_array_t`. -/
def path_array_t.size (arr : path_array_t) : Nat := arr.entries.length

/-- The `cmd_t` struct: `args` holds the slots written so far (`none` is `NULL`). -/
structure cmd_t where
  args : List (Option String)
  size : Nat
  capacity : Nat
  deriving DecidableEq

/-- The `cmd_list_t` struct: `commands` holds the slots (`none` is a `NULL` pointer). -/
structure cmd_list_t where
  commands : List (Option cmd_t)
  size : Nat
  capacity : Nat
  deriving DecidableEq

/-- Observable actions of the parent process, in program order. -/
inductive Event where
  | stdout (s : String)
  | stderr (s : String)
  | access (path : String) (ok : Bool)
  | fork (r : Option Nat)
  | chdir (dir : String) (ok : Bool)
  | wait (r : Option Nat)
  | getcwd (r : Option String)
  deriving DecidableEq

/-- A forked child: its pid and the variables its branch of `run_external_cmd` reads
(`file_path`, the `c->args` array and `ri`, where `none` stands for `-1`). -/
structure child_t where
  pid : Nat
  file_path : String
  args : List (Option String)
  ri : Option Nat
  deriving DecidableEq

/-- Actions of a child process between `fork` and `execv`. -/
inductive ChildEvent where
  | open_file (path : String) (ok : Bool)
  | dup2_stdout
  | dup2_stderr
  | close
  | execv (path : String) (argv : List String) (ok : Bool)
  | stderr (s : String)
  | exit (code : Nat)
  deriving DecidableEq

/-- The environment; each oracle is asked at the current clock value.
* `access t p`: whether `access(p, X_OK) == 0`.
* `fork t`: the result of `fork()` in the parent, `none` for `-1`, `some pid` for a new child.
* `chdir t d`: whether `chdir(d)` succeeds.
* `wait t pids`: which of the un-awaited children (given by pid, in spawn order) `wait`
  collects; `some k` is the child at position `k` modulo the number of children, `none`
  means that no child ever exits, so that `wait` does not return.
* `getcwd t`: the result of `getcwd(NULL, 0)`.
* `strerror t`: the text of `strerror(errno)`. -/
structure OS where
  access : Nat → String → Bool
  fork : Nat → Option Nat
  chdir : Nat → String → Bool
  wait : Nat → List Nat → Option Nat
  getcwd : Nat → Option String
  strerror : Nat → String

/-- The globals of `wish.c` together with the process table and the event trace. -/
structure ShellState where
  path_arr : path_array_t
  cmd_list : cmd_list_t
  file_path : String
  exit_code : Nat
  batch_mode : Bool
  children : List child_t
  trace : List Event
  clock : Nat
  deriving DecidableEq

/-- A `FILE *` opened for reading: the bytes not yet read and the end-of-file indicator. -/
structure FILE where
  data : List Char
  eof : Bool
  deriving DecidableEq

/-- How one pass through the body of the `while (1)` of `start_shell` ends. -/
inductive Outcome where
  | terminated
  | next
  | blocked
  deriving DecidableEq

/-! ## Helpers for memory and events -/

/-- The array store `a[i] = v`; slots between the written part and `i` read as `NULL`. -/
def store {α : Type} (l : List (Option α)) (i : Nat) (v : Option α) : List (Option α) :=
  if i < l.length then l.set i v else l ++ List.replicate (i - l.length) none ++ [v]

/-- The pointer `c->args[i]`. -/
def arg (c : cmd_t) (i : Nat) : Option String := c.args.getD i none

/-- The text behind a `char *`; a `NULL` pointer (never passed by the tokenizer for a slot
below `size`) reads as the empty string. -/
def cstr (p : Option String) : String := p.getD ""

/-- Record one event and advance the clock. -/
def emit (st : ShellState) (e : Event) : ShellState :=
  { st with trace := st.trace ++ [e], clock := st.clock + 1 }

/-- The effect of `snprintf(buf, n, ...)` on the formatted text `s`: at most `n - 1` bytes are kept. -/
def snprintf (n : Nat) (s : String) : String := String.mk (s.data.take (n - 1))

/-- The argument vector `execv` reads from an `args` array: the entries before the first `NULL`. -/
def argv_of (args : List (Option String)) : List String :=
  (args.takeWhile Option.isSome).filterMap id

/-! ## Initialisers and capacity growth -/

/-- Source: `init_path_arr`. -/
def init_path_arr : path_array_t := { entries := [], capacity := INITIAL_CAPACITY }

/-- Source: `init_cmd`; `calloc` zeroes the `capacity` slots. -/
def init_cmd : cmd_t :=
  { args := List.replicate INITIAL_CAPACITY none, size := 0, capacity := INITIAL_CAPACITY }

/-- Source: `init_cmd_list`; `calloc` zeroes the `capacity` slots. -/
def init_cmd_list : cmd_list_t :=
  { commands := List.replicate INITIAL_CAPACITY none, size := 0, capacity := INITIAL_CAPACITY }

/-- Source: `ensure_path_capacity`. -/
def ensure_path_capacity (arr : path_array_t) : path_array_t :=
  if arr.size = arr.capacity then { arr with capacity := arr.capacity * 2 } else arr

/-- Source: `ensure_cmd_capacity`. -/
def ensure_cmd_capacity (c : cmd_t) : cmd_t :=
  if c.size = c.capacity then { c with capacity := c.capacity * 2 } else c

/-- Source: `ensure_cmd_list_capacity`. -/
def ensure_cmd_list_capacity (cl : cmd_list_t) : cmd_list_t :=
  if cl.size = cl.capacity then { cl with capacity := cl.capacity * 2 } else cl

/-! ## Resolution of a command name -/

/-- The `for` loop of `check_executable_access` over the remaining registry entries. -/
def path_search (os : OS) (filename : String) : List String → ShellState → Nat × ShellState
  | [], st => (EXIT_FAILURE, st)
  | dir :: rest, st =>
    let fp := snprintf MAX_COMMAND_SIZE (dir ++ "/" ++ filename)
    let ok := os.access st.clock fp
    let st1 := emit { st with file_path := fp } (Event.access fp ok)
    if ok then (EXIT_SUCCESS, st1) else path_search os filename rest st1

/-- Source: `check_executable_access(filename, &file_path)`. -/
def check_executable_access (os : OS) (st : ShellState) (filename : String) : Nat × ShellState :=
  let ok := os.access st.clock filename
  let st1 := emit st (Event.access filename ok)
  if ok then (EXIT_SUCCESS, { st1 with file_path := filename })
  else path_search os filename st1.path_arr.entries st1

/-! ## External commands -/

/-- The scan of `run_external_cmd` for the first token equal to `>`:
`find_redirect c n i` looks at the `n` slots from `i` on. -/
def find_redirect (c : cmd_t) : Nat → Nat → Option Nat
  | 0, _ => none
  | n + 1, i => if arg c i = some ">" then some i else find_redirect c n (i + 1)

/-- The test `ri == 0 || (c->size - (ri + 1)) != 1` made when the marker is found at `ri`. -/
def bad_redirect (c : cmd_t) (ri : Nat) : Bool :=
  decide (ri = 0 ∨ (c.size : Int) - ((ri : Int) + 1) ≠ 1)

/-- The message printed when resolution fails. -/
def not_found_message (batch_mode : Bool) (name : String) : String :=
  if batch_mode then GENERIC_ERROR else "error:\n\tcommand \x27" ++ name ++ "\x27 not found\n"

/-- Lines 135-167 of `run_external_cmd`: resolve the program, fork, or report "not found";
`c` is the command after the scan and `ri` the index of the marker (`none` stands for `-1`). -/
def resolve_and_fork (os : OS) (st : ShellState) (c : cmd_t) (ri : Option Nat) :
    Nat × ShellState × cmd_t :=
  let res := check_executable_access os st (cstr (arg c 0))
  let st1 := res.2
  if res.1 = EXIT_SUCCESS then
    match os.fork st1.clock with
    | none =>
      let st2 := emit st1 (Event.fork none)
      let st3 := emit st2 (Event.stderr ("error: " ++ os.strerror st2.clock ++ "\n"))
      (EXIT_SUCCESS, { st3 with exit_code := EXIT_FAILURE }, c)
    | some pid =>
      let st2 := emit st1 (Event.fork (some pid))
      let child : child_t :=
        { pid := pid, file_path := st1.file_path, args := c.args, ri := ri }
      (EXIT_FAILURE, { st2 with children := st2.children ++ [child] }, c)
  else
    (EXIT_FAILURE,
      emit st1 (Event.stderr (not_found_message st1.batch_mode (cstr (arg c 0)))), c)

/-- Source: `run_external_cmd` (lines 118-134 here, the rest in `resolve_and_fork`); returns
the status, the new state and the command, whose `args` may have been cut at the marker. -/
def run_external_cmd (os : OS) (st : ShellState) (c : cmd_t) : Nat × ShellState × cmd_t :=
  match find_redirect c c.size 0 with
  | some ri =>
    if bad_redirect c ri then
      (EXIT_FAILURE, emit st (Event.stderr GENERIC_ERROR), c)
    else
      resolve_and_fork os st { c with args := store c.args ri none } (some ri)
  | none => resolve_and_fork os st c none

/-- The `child == 0` branch of `run_external_cmd`: `open_ok` and `exec_ok` say whether
`open` and `execv` succeed, `err` is the text of `strerror(errno)` on failure. -/
def child_main (ch : child_t) (open_ok exec_ok : Bool) (err : String) : List ChildEvent :=
  let tail : List ChildEvent :=
    ChildEvent.execv ch.file_path (argv_of ch.args) exec_ok ::
      (if exec_ok then []
       else [ChildEvent.stderr ("error: " ++ err ++ "\n"), ChildEvent.exit EXIT_FAILURE])
  match ch.ri with
  | none => tail
  | some ri =>
    let target := cstr (ch.args.getD (ri + 1) none)
    if open_ok then
      [ChildEvent.open_file target true, ChildEvent.dup2_stdout, ChildEvent.dup2_stderr,
        ChildEvent.close] ++ tail
    else
      [ChildEvent.open_file target false, ChildEvent.stderr ("error: " ++ err ++ "\n"),
        ChildEvent.exit EXIT_FAILURE]

/-! ## Built-ins -/

/-- The second `for` loop of the `path` built-in: copy `c->args[i]`, for the `n` slots from `i` on. -/
def path_fill (c : cmd_t) : Nat → Nat → path_array_t → path_array_t
  | 0, _, arr => arr
  | n + 1, i, arr =>
    let arr1 := ensure_path_capacity arr
    path_fill c n (i + 1) { arr1 with entries := arr1.entries ++ [cstr (arg c i)] }

/-- Source: the function `run_cmd` of `wish.c` (its name is a reserved word here). -/
def run_command (os : OS) (st : ShellState) (c : cmd_t) : Nat × ShellState × cmd_t :=
  if c.size = 0 ∨ arg c 0 = none then
    (EXIT_FAILURE, st, c)
  else if arg c 0 = some "exit" then
    if c.size > 1 then
      (EXIT_FAILURE, emit st (Event.stderr GENERIC_ERROR), c)
    else if ¬ st.batch_mode then
      (EXIT_SUCCESS, emit st (Event.stdout "Goodbye!\n"), c)
    else
      (EXIT_SUCCESS, st, c)
  else if arg c 0 = some "cd" then
    if c.size ≠ 2 then
      (EXIT_FAILURE, emit st (Event.stderr GENERIC_ERROR), c)
    else
      let dir := cstr (arg c 1)
      let ok := os.chdir st.clock dir
      let st1 := emit st (Event.chdir dir ok)
      if ¬ ok then
        (EXIT_FAILURE,
          emit st1 (Event.stderr
            ("error:\n\tcannot execute command \x27cd\x27: " ++ os.strerror st1.clock ++ "\n")), c)
      else
        (EXIT_FAILURE, st1, c)
  else if arg c 0 = some "path" then
    let cleared : path_array_t := { st.path_arr with entries := [] }
    (EXIT_FAILURE, { st with path_arr := path_fill c (c.size - 1) 1 cleared }, c)
  else
    run_external_cmd os st c

/-! ## Reading and splitting a line -/

/-- The read loop of `fgets`: `fgets_loop k acc rest` may still store `k` bytes; the result is
the bytes stored, the bytes left in the stream, and whether end of file was hit. -/
def fgets_loop : Nat → List Char → List Char → List Char × List Char × Bool
  | 0, acc, rest => (acc, rest, false)
  | _ + 1, acc, [] => (acc, [], true)
  | k + 1, acc, ch :: rest =>
    if ch = '\n' then (acc ++ [ch], rest, false) else fgets_loop k (acc ++ [ch]) rest

/-- The library call `fgets(buf, n, in)`: `none` is a `NULL` result (end of file before any
byte was read); the stream keeps its end-of-file indicator once set. -/
def fgets (n : Nat) (inp : FILE) : Option (List Char) × FILE :=
  let r := fgets_loop (n - 1) [] inp.data
  let inp1 : FILE := { data := r.2.1, eof := inp.eof || r.2.2 }
  if r.1 = [] ∧ r.2.2 = true then (none, inp1) else (some r.1, inp1)

/-- The library call `feof(in)`. -/
def feof (inp : FILE) : Bool := inp.eof

/-- The bytes of the C string held in a buffer: those before the first NUL byte. -/
def c_string (buf : List Char) : List Char := buf.takeWhile (fun ch => ch != Char.ofNat 0)

/-- The library call `strtok_r(str, delim, &save)` on the C string `s` (its bytes, without
the NUL that ends it) that `str` (first call) or `save` (later calls) points to: `none` is
`NULL`, otherwise the token and the new `save`. -/
def strtok_r (delim : List Char) (s : List Char) : Option (List Char × List Char) :=
  let s1 := s.dropWhile (fun ch => decide (ch ∈ delim))
  if s1 = [] then none
  else some (s1.takeWhile (fun ch => ! decide (ch ∈ delim)),
             (s1.dropWhile (fun ch => ! decide (ch ∈ delim))).drop 1)

/-- The inner `while (tk != NULL)` of `start_shell`: store the tokens of the text at `tp`. -/
def token_loop : Nat → cmd_t → List Char → cmd_t
  | 0, c, _ => c
  | fuel + 1, c, tp =>
    match strtok_r [' ', '\n', '\t'] tp with
    | none => c
    | some (tk, tp1) =>
      let c1 := ensure_cmd_capacity c
      token_loop fuel
        { c1 with args := store c1.args c1.size (some (String.mk tk)), size := c1.size + 1 } tp1

/-- The command `single_c` of one `&`-segment just before `single_c->args[size] = NULL`:
the slot of the list is reused (or created by `init_cmd`), its size reset, the tokens stored.
`cl.commands` holds the slots that have a value (the two zeroed by `calloc`, then those
stored into); a slot beyond them was added by `realloc` and is uninitialised in `wish.c`, so
that reading it is undefined (see `segment_undefined`); here it reads as `NULL`. -/
def segment_cmd (cl : cmd_list_t) (sc_line : List Char) : cmd_t :=
  let single_c : cmd_t := match cl.commands.getD cl.size none with
    | none => init_cmd
    | some c => c
  token_loop (sc_line.length + 1) { single_c with size := 0 } sc_line

/-- The outer `while (sc_line != NULL)` of `start_shell`, `scp` being the text left after
the previous segment.  The terminator store `args[size] = NULL` is past the array when
`size == capacity` (undefined in C, see `segment_undefined`); here it extends `args`. -/
def segment_loop : Nat → cmd_list_t → List Char → cmd_list_t
  | 0, cl, _ => cl
  | fuel + 1, cl, scp =>
    match strtok_r ['&'] scp with
    | none => cl
    | some (sc_line, scp1) =>
      let cl1 := ensure_cmd_list_capacity cl
      let single_c := segment_cmd cl1 sc_line
      let done : cmd_t := { single_c with args := store single_c.args single_c.size none }
      segment_loop fuel
        { cl1 with commands := store cl1.commands cl1.size (some done), size := cl1.size + 1 } scp1

/-- The command `cmd_list.commands[i]` points to. -/
def cmd_at (cl : cmd_list_t) (i : Nat) : cmd_t := (cl.commands.getD i none).getD init_cmd

/-- Lines 245-274 of `start_shell`: split `input_line` into commands and drop a last empty one. -/
def parse_line (cl : cmd_list_t) (input_line : List Char) : cmd_list_t :=
  let cl1 := segment_loop (input_line.length + 1) { cl with size := 0 } input_line
  if cl1.size > 0 ∧ (cmd_at cl1 (cl1.size - 1)).size = 0 then { cl1 with size := cl1.size - 1 }
  else cl1

/-- Whether the work on one segment steps outside initialised, allocated memory (`cl` is the
list after `ensure_cmd_list_capacity`): either the slot `commands[size]` read at line 251 has
never been given a value, or the terminator of line 267 goes to `args[size]` with `size` not
below `capacity`.  The behaviour of `wish.c` is then undefined. -/
def segment_undefined (cl : cmd_list_t) (sc_line : List Char) : Bool :=
  decide (cl.commands.length ≤ cl.size)
    || decide ((segment_cmd cl sc_line).capacity ≤ (segment_cmd cl sc_line).size)

/-- Whether some pass of the outer `while` of `start_shell` is undefined; the recursion is that
of `segment_loop`. -/
def undefined_loop : Nat → cmd_list_t → List Char → Bool
  | 0, _, _ => false
  | fuel + 1, cl, scp =>
    match strtok_r ['&'] scp with
    | none => false
    | some (sc_line, scp1) =>
      let cl1 := ensure_cmd_list_capacity cl
      let single_c := segment_cmd cl1 sc_line
      let done : cmd_t := { single_c with args := store single_c.args single_c.size none }
      segment_undefined cl1 sc_line
        || undefined_loop fuel
            { cl1 with commands := store cl1.commands cl1.size (some done),
                       size := cl1.size + 1 } scp1

/-- Whether lines 245-274 of `start_shell`, run on the line `input_line`, step outside
initialised, allocated memory. -/
def parse_undefined (cl : cmd_list_t) (input_line : List Char) : Bool :=
  undefined_loop (input_line.length + 1) { cl with size := 0 } input_line

/-! ## Dispatch and await -/

/-- The dispatch `for` loop of `start_shell`: run the `n` commands from index `i` on, stopping
at the first one that returns `EXIT_SUCCESS`; the result is the value of `ex`. -/
def dispatch (os : OS) : Nat → Nat → ShellState → Nat × ShellState
  | 0, _, st => (EXIT_FAILURE, st)
  | n + 1, i, st =>
    let r := run_command os st (cmd_at st.cmd_list i)
    let st1 : ShellState :=
      { r.2.1 with cmd_list :=
          { r.2.1.cmd_list with commands := store r.2.1.cmd_list.commands i (some r.2.2) } }
    if r.1 = EXIT_SUCCESS then (EXIT_SUCCESS, st1) else dispatch os n (i + 1) st1

/-- The library call `wait(NULL)`: without children it returns at once; otherwise it collects
the child the environment chooses, or never returns (`none`) when none of them exits. -/
def wait_any (os : OS) (st : ShellState) : Option ShellState :=
  if st.children = [] then some (emit st (Event.wait none))
  else
    match os.wait st.clock (st.children.map child_t.pid) with
    | none => none
    | some k =>
      let j := k % st.children.length
      some { emit st (Event.wait ((st.children.get? j).map child_t.pid)) with
             children := st.children.eraseIdx j }

/-- The await `for` loop of `start_shell`: `n` calls of `wait(NULL)`. -/
def await_children (os : OS) : Nat → ShellState → Option ShellState
  | 0, st => some st
  | n + 1, st =>
    match wait_any os st with
    | none => none
    | some st1 => await_children os n st1

/-! ## The shell loop -/

/-- Lines 225-234 of `start_shell`: the working directory and the prompt. -/
def show_prompt (os : OS) (st : ShellState) : ShellState :=
  let cwd := os.getcwd st.clock
  let st1 := emit st (Event.getcwd cwd)
  let st2 := match cwd with
    | some d => emit st1 (Event.stdout (d ++ "\n"))
    | none => st1
  emit st2 (Event.stdout "wish>")

/-- Lines 237-243 of `start_shell`: what is done when no line is accepted. -/
def end_of_input (os : OS) (st : ShellState) : ShellState :=
  if st.batch_mode then st
  else { emit st (Event.stderr ("error: " ++ os.strerror st.clock)) with exit_code := EXIT_FAILURE }

/-- Lines 275-296 of `start_shell`: dispatch the commands of `cmd_list`, then, unless one of
them ended the shell, call `wait` once per command and print the blank line. -/
def run_line (os : OS) (st : ShellState) : Outcome × ShellState :=
  let d := dispatch os st.cmd_list.size 0 st
  if d.1 = EXIT_SUCCESS then (Outcome.terminated, d.2)
  else
    match await_children os d.2.cmd_list.size d.2 with
    | none => (Outcome.blocked, d.2)
    | some st2 =>
      (Outcome.next, if st2.batch_mode then st2 else emit st2 (Event.stdout "\n"))

/-- Lines 245-296 of `start_shell`: parse (the C string in `input_line`), dispatch and await
one accepted line. -/
def process_line (os : OS) (st : ShellState) (input_line : List Char) : Outcome × ShellState :=
  run_line os { st with cmd_list := parse_line st.cmd_list (c_string input_line) }

/-- One pass through the body of the `while (1)` of `start_shell`. -/
def shell_iteration (os : OS) (st : ShellState) (inp : FILE) : Outcome × ShellState × FILE :=
  let st1 := if st.batch_mode then st else show_prompt os st
  let r := fgets MAX_COMMAND_SIZE inp
  match r.1 with
  | none => (Outcome.terminated, end_of_input os st1, r.2)
  | some input_line =>
    if feof r.2 then (Outcome.terminated, end_of_input os st1, r.2)
    else
      let p := process_line os st1 input_line
      (p.1, p.2, r.2)

/-- The `while (1)` of `start_shell`, with a bound on the number of passes.  The stream is
the view of the script that the parent holds: the file offset it shares with its children is
taken to stay where the parent left it. -/
def shell_loop (os : OS) : Nat → ShellState → FILE → Outcome × ShellState × FILE
  | 0, st, inp => (Outcome.next, st, inp)
  | fuel + 1, st, inp =>
    match shell_iteration os st inp with
    | (Outcome.next, st1, inp1) => shell_loop os fuel st1 inp1
    | r => r

/-- Source: `start_shell(in)`; every accepted line consumes at least one byte, so one pass
more than there are bytes is enough. -/
def start_shell (os : OS) (st : ShellState) (inp : FILE) : Outcome × ShellState × FILE :=
  shell_loop os (inp.data.length + 1) st inp

/-- The globals as `main` sets them before it calls `start_shell`; `batch` is `argc == 2`. -/
def initial_state (batch : Bool) : ShellState :=
  let arr := ensure_path_capacity init_path_arr
  { path_arr := { arr with entries := arr.entries ++ ["/bin"] },
    cmd_list := init_cmd_list,
    file_path := "",
    exit_code := 0,
    batch_mode := batch,
    children := [],
    trace := [],
    clock := 0 }

/-- A stream holding the text `s`, nothing read yet. -/
def stream_of (s : String) : FILE := { data := s.data, eof := false }

/-- The command the tokenizer builds from the tokens `toks` in a fresh `cmd_t`, followed by
the slots `stale` left behind by an earlier line. -/
def mk_cmd (toks : List String) (stale : List (Option String)) (capacity : Nat) : cmd_t :=
  { args := toks.map some ++ none :: stale, size := toks.length, capacity := capacity }

/-- Whether a first token names a built-in (`exit`, `cd` or `path`). -/
def is_builtin (t : String) : Bool := decide (t = "exit" ∨ t = "cd" ∨ t = "path")

/-- Whether an event is a call of `wait`. -/
def is_wait : Event → Bool
  | Event.wait _ => true
  | _ => false

/-- Whether an event is a `fork` that created a child. -/
def is_spawn : Event → Bool
  | Event.fork (some _) => true
  | _ => false

/-- Whether an event is a write to standard error. -/
def is_stderr : Event → Bool
  | Event.stderr _ => true
  | _ => false

/-- The list of commands that the tokenizer builds from the line `ls & pwd` in a fresh list. -/
def two_commands : cmd_list_t :=
  { commands := [some (mk_cmd ["ls"] [] 2), some (mk_cmd ["pwd"] [] 2)],
    size := 2, capacity := 2 }

/-- Whether the first `size` slots of a list each hold a command as the tokenizer leaves
it: its tokens, the `NULL` terminator, then older slots. -/
def holds_parsed_commands (cl : cmd_list_t) : Prop :=
  ∀ i, i < cl.size →
    ∃ (toks : List String) (stale : List (Option String)) (cap : Nat),
      cl.commands.get? i = some (some (mk_cmd toks stale cap))


/-- An environment in which exactly the paths listed in `exec` are executable, every `fork`
succeeds (the pid is 100 plus the clock), `chdir` succeeds and the oldest child exits first. -/
def example_os (exec : List String) : OS :=
  { access := fun _ p => decide (p ∈ exec),
    fork := fun t => some (100 + t),
    chdir := fun _ _ => true,
    wait := fun _ _ => some 0,
    getcwd := fun _ => some "/home",
    strerror := fun _ => "No such file or directory" }

/-! ## Reading the slots of a command -/

theorem arg_mk_cmd_lt (toks : List String) (stale : List (Option String)) (cap i : Nat)
    (h : i < toks.length) : arg (mk_cmd toks stale cap) i = some (toks.get ⟨i, h⟩) := by
  simp [arg, mk_cmd, List.getD_eq_getElem?_getD, List.getElem?_append_left, h]

theorem arg_mk_cmd_length (toks : List String) (stale : List (Option String)) (cap : Nat) :
    arg (mk_cmd toks stale cap) toks.length = none := by
  have h : (List.map some toks).length ≤ toks.length := by simp
  simp [arg, mk_cmd, List.getD_eq_getElem?_getD, List.getElem?_append_right h]

theorem arg_mk_cmd_zero (t : String) (rest : List String) (stale : List (Option String))
    (cap : Nat) : arg (mk_cmd (t :: rest) stale cap) 0 = some t := by
  simp [arg, mk_cmd]

/-! ## The scan for the redirection marker -/

theorem find_redirect_none (c : cmd_t) (n i : Nat)
    (h : ∀ j, i ≤ j → j < i + n → arg c j ≠ some ">") : find_redirect c n i = none := by
  induction n generalizing i with
  | zero => rfl
  | succ n ih =>
    have h0 : arg c i ≠ some ">" := h i (Nat.le_refl i) (by omega)
    simp only [find_redirect, h0, if_false]
    exact ih (i + 1) (fun j h1 h2 => h j (by omega) (by omega))

theorem find_redirect_some (c : cmd_t) (n i k : Nat) (hik : i ≤ k) (hkn : k < i + n)
    (hk : arg c k = some ">") (h : ∀ j, i ≤ j → j < k → arg c j ≠ some ">") :
    find_redirect c n i = some k := by
  induction n generalizing i with
  | zero => omega
  | succ n ih =>
    by_cases hi : i = k
    · subst hi
      simp [find_redirect, hk]
    · have h0 : arg c i ≠ some ">" := h i (Nat.le_refl i) (by omega)
      simp only [find_redirect, h0, if_false]
      exact ih (i + 1) (by omega) (by omega) (fun j h1 h2 => h j (by omega) h2)

theorem find_redirect_mk_cmd_none (toks : List String) (stale : List (Option String))
    (cap : Nat) (h : ">" ∉ toks) :
    find_redirect (mk_cmd toks stale cap) (mk_cmd toks stale cap).size 0 = none := by
  apply find_redirect_none
  intro j _ hj
  have hj2 : j < toks.length := by simpa [mk_cmd] using hj
  rw [arg_mk_cmd_lt toks stale cap j hj2]
  intro hc
  apply h
  have := List.get_mem toks j hj2
  simp only [Option.some.injEq] at hc
  rwa [hc] at this

theorem find_redirect_mk_cmd_some (front back : List String) (stale : List (Option String))
    (cap : Nat) (h : ">" ∉ front) :
    find_redirect (mk_cmd (front ++ ">" :: back) stale cap)
      (mk_cmd (front ++ ">" :: back) stale cap).size 0 = some front.length := by
  apply find_redirect_some
  · exact Nat.zero_le _
  · simp [mk_cmd]
  · have hl : front.length < (front ++ ">" :: back).length := by simp
    rw [arg_mk_cmd_lt _ stale cap _ hl]
    simp [List.getElem_append_right (Nat.le_refl front.length)]
  · intro j _ hj
    have hl : j < (front ++ ">" :: back).length := by simp; omega
    rw [arg_mk_cmd_lt _ stale cap _ hl]
    intro hc
    apply h
    simp only [Option.some.injEq] at hc
    have h2 : (front ++ ">" :: back).get ⟨j, hl⟩ = front.get ⟨j, hj⟩ := by
      simp [List.getElem_append_left, hj]
    rw [h2] at hc
    rw [← hc]
    exact List.get_mem front j hj

/-- When the scan finds the marker in a bad position, `run_external_cmd` only reports. -/
theorem run_external_cmd_bad (os : OS) (st : ShellState) (c : cmd_t) (k : Nat)
    (hk : find_redirect c c.size 0 = some k) (hbad : bad_redirect c k = true) :
    run_external_cmd os st c = (EXIT_FAILURE, emit st (Event.stderr GENERIC_ERROR), c) := by
  simp [run_external_cmd, hk, hbad]

/-- A first token that is no built-in sends the command to `run_external_cmd`. -/
theorem run_command_external (os : OS) (st : ShellState) (c : cmd_t) (t : String)
    (hsize : c.size ≠ 0) (h0 : arg c 0 = some t) (hb : is_builtin t = false) :
    run_command os st c = run_external_cmd os st c := by
  simp only [is_builtin, decide_eq_false_iff_not, not_or] at hb
  obtain ⟨h1, h2, h3⟩ := hb
  simp [run_command, hsize, h0, h1, h2, h3]

theorem malformed_mk_cmd (os : OS) (st : ShellState) (front back : List String)
    (stale : List (Option String)) (cap : Nat) (hfront : ">" ∉ front)
    (hbad : front = [] ∨ back.length ≠ 1) :
    run_external_cmd os st (mk_cmd (front ++ ">" :: back) stale cap)
      = (EXIT_FAILURE, emit st (Event.stderr GENERIC_ERROR),
          mk_cmd (front ++ ">" :: back) stale cap) := by
  apply run_external_cmd_bad os st _ front.length (find_redirect_mk_cmd_some front back stale cap hfront)
  simp only [bad_redirect, decide_eq_true_eq, mk_cmd, List.length_append, List.length_cons]
  rcases hbad with h | h
  · left; simp [h]
  · right; push_cast; omega

/-- C4: an invocation whose first token is `exit` makes `run_cmd` return the terminating
status exactly when it has no further token; with extra tokens the only effect is the
generic error on standard error (no farewell on standard output), the status is the
non-terminating one, and the dispatch loop of `start_shell` goes on to the next invocation. -/
theorem exit_terminates_iff_no_arguments (os : OS) (st : ShellState) (c : cmd_t)
    (hsize : c.size ≠ 0) (h0 : arg c 0 = some "exit") :
    ((run_command os st c).1 = EXIT_SUCCESS ↔ c.size = 1)
    ∧ (1 < c.size →
        run_command os st c = (EXIT_FAILURE, emit st (Event.stderr GENERIC_ERROR), c)
        ∧ (run_command os st c).2.1.trace = st.trace ++ [Event.stderr "An error has occurred\n"]
        ∧ ∀ (n i : Nat) (s : ShellState), cmd_at s.cmd_list i = c →
            dispatch os (n + 1) i s
              = dispatch os n (i + 1)
                  { emit s (Event.stderr GENERIC_ERROR) with
                    cmd_list := { s.cmd_list with
                      commands := store s.cmd_list.commands i (some c) } }) := by
  refine ⟨?_, ?_⟩
  · by_cases h1 : 1 < c.size
    · have hne : c.size ≠ 1 := by omega
      simp [run_command, hsize, h0, h1, hne, EXIT_SUCCESS, EXIT_FAILURE]
    · have he : c.size = 1 := by omega
      by_cases hb : st.batch_mode = true <;> simp [run_command, h0, he, hb]
  · intro h1
    have hrun : run_command os st c = (EXIT_FAILURE, emit st (Event.stderr GENERIC_ERROR), c) := by
      simp [run_command, hsize, h0, h1]
    refine ⟨hrun, ?_, ?_⟩
    · rw [hrun]; rfl
    · intro n i s hc
      have hrun2 : run_command os s c = (EXIT_FAILURE, emit s (Event.stderr GENERIC_ERROR), c) := by
        simp [run_command, hsize, h0, h1]
      simp [dispatch, hc, hrun2, EXIT_SUCCESS, EXIT_FAILURE, emit]

/-- Witness for C4: `exit 3` in batch mode. -/
theorem exit_terminates_iff_no_arguments_witness :
    (run_command (example_os []) (initial_state true) (mk_cmd ["exit", "3"] [] 2)).1 ≠ EXIT_SUCCESS
    ∧ (run_command (example_os []) (initial_state true) (mk_cmd ["exit", "3"] [] 2)).2.1.trace
        = [Event.stderr "An error has occurred\n"] := by
  have h := exit_terminates_iff_no_arguments (example_os []) (initial_state true)
    (mk_cmd ["exit", "3"] [] 2) (by decide) (by decide)
  refine ⟨?_, ?_⟩
  · intro he
    have := h.1.mp he
    revert this
    decide
  · have h2 := (h.2 (by decide)).2.1
    rw [h2]
    rfl

/-- C5: when the first token equal to `>` is the first token of the invocation, or has no
token after it, or has two or more tokens after it, `run_external_cmd` prints the generic
error and returns the failure status; the state changes by that one event only (no `access`,
no `fork`, no child that could open a file), and `run_cmd` reaches this path for every such
invocation whose first token is not a built-in. -/
theorem malformed_redirection_rejected (os : OS) (st : ShellState) (front back : List String)
    (stale : List (Option String)) (cap : Nat) (hfront : ">" ∉ front)
    (hbad : front = [] ∨ back.length = 0 ∨ 2 ≤ back.length) :
    run_external_cmd os st (mk_cmd (front ++ ">" :: back) stale cap)
      = (EXIT_FAILURE, emit st (Event.stderr GENERIC_ERROR),
          mk_cmd (front ++ ">" :: back) stale cap)
    ∧ (emit st (Event.stderr GENERIC_ERROR)).trace
        = st.trace ++ [Event.stderr "An error has occurred\n"]
    ∧ (emit st (Event.stderr GENERIC_ERROR)).children = st.children
    ∧ ((∀ t ∈ (front ++ ">" :: back).head?, is_builtin t = false) →
        run_command os st (mk_cmd (front ++ ">" :: back) stale cap)
          = run_external_cmd os st (mk_cmd (front ++ ">" :: back) stale cap)) := by
  refine ⟨?_, rfl, rfl, ?_⟩
  · apply malformed_mk_cmd os st front back stale cap hfront
    rcases hbad with h | h | h
    · exact Or.inl h
    · exact Or.inr (by omega)
    · exact Or.inr (by omega)
  · intro hb
    cases hfb : front ++ ">" :: back with
    | nil => simp at hfb
    | cons t rest =>
      rw [hfb] at hb
      exact run_command_external os st _ t (by simp [mk_cmd]) (arg_mk_cmd_zero t rest stale cap)
        (hb t (by simp))

/-- Witness for C5: `cmd a > b > c`. -/
theorem malformed_redirection_rejected_witness :
    (run_external_cmd (example_os ["/bin/cmd"]) (initial_state true)
      (mk_cmd (["cmd", "a"] ++ ">" :: ["b", ">", "c"]) [] 8)).2.1.trace
      = [Event.stderr "An error has occurred\n"] := by
  rw [(malformed_redirection_rejected (example_os ["/bin/cmd"]) (initial_state true)
    ["cmd", "a"] ["b", ">", "c"] [] 8 (by decide) (by decide)).1]
  rfl

/-- Counterexample to C9: `ls > >` holds the marker twice, yet with `/bin/ls` executable
`run_external_cmd` prints nothing and forks a child that is to write to the file `>`. -/
theorem repeated_marker_accepted :
    List.count ">" ["ls", ">", ">"] = 2
    ∧ (run_external_cmd (example_os ["/bin/ls"]) (initial_state true)
        (mk_cmd ["ls", ">", ">"] [] 4)).2.1.trace
        = [Event.access "ls" false, Event.access "/bin/ls" true, Event.fork (some 102)]
    ∧ (run_external_cmd (example_os ["/bin/ls"]) (initial_state true)
        (mk_cmd ["ls", ">", ">"] [] 4)).2.1.children
        = [{ pid := 102, file_path := "/bin/ls", args := [some "ls", none, some ">", none],
             ri := some 1 }]
    ∧ child_main { pid := 102, file_path := "/bin/ls", args := [some "ls", none, some ">", none],
                   ri := some 1 } true true ""
        = [ChildEvent.open_file ">" true, ChildEvent.dup2_stdout, ChildEvent.dup2_stderr,
           ChildEvent.close, ChildEvent.execv "/bin/ls" ["ls"] true] := by
  refine ⟨by decide, by rfl, by rfl, by rfl⟩

/-- C9 (amended): an invocation with two or more tokens equal to `>` is rejected by
`run_external_cmd` with the generic error and no other effect, unless it has the form
`t0 ... t(k-1) > >` with `k >= 1` and no `ti` equal to `>` (there the second marker is the
single token after the first and is taken as the file name). -/
theorem repeated_marker_rejected (os : OS) (st : ShellState) (toks : List String)
    (stale : List (Option String)) (cap : Nat) (hcount : 2 ≤ toks.count ">")
    (hshape : ∀ front : List String, front ≠ [] → ">" ∉ front → toks ≠ front ++ [">", ">"]) :
    run_external_cmd os st (mk_cmd toks stale cap)
      = (EXIT_FAILURE, emit st (Event.stderr GENERIC_ERROR), mk_cmd toks stale cap)
    ∧ (emit st (Event.stderr GENERIC_ERROR)).trace
        = st.trace ++ [Event.stderr "An error has occurred\n"]
    ∧ (emit st (Event.stderr GENERIC_ERROR)).children = st.children := by
  refine ⟨?_, rfl, rfl⟩
  have hmem : ">" ∈ toks := List.count_pos_iff.mp (by omega)
  obtain ⟨front, back, rfl, hfront⟩ := List.eq_append_cons_of_mem hmem
  apply malformed_mk_cmd os st front back stale cap hfront
  by_contra hcon
  simp only [not_or, ne_eq, not_not] at hcon
  obtain ⟨hne, hlen⟩ := hcon
  obtain ⟨x, rfl⟩ := List.length_eq_one.mp hlen
  have hc0 : List.count ">" front = 0 := List.count_eq_zero.mpr hfront
  have hx : x = ">" := by
    by_contra hx
    have hx2 : (">" : String) ≠ x := fun h => hx h.symm
    simp [List.count_append, List.count_cons, hc0, hx] at hcount
  subst hx
  exact hshape front hne hfront rfl

/-- Witness for C9 (amended): `cmd a > b > c`. -/
theorem repeated_marker_rejected_witness :
    (run_external_cmd (example_os ["/bin/cmd"]) (initial_state true)
      (mk_cmd ["cmd", "a", ">", "b", ">", "c"] [] 8)).1 = EXIT_FAILURE
    ∧ (run_external_cmd (example_os ["/bin/cmd"]) (initial_state true)
      (mk_cmd ["cmd", "a", ">", "b", ">", "c"] [] 8)).2.1.trace
      = [Event.stderr "An error has occurred\n"] := by
  have h := (repeated_marker_rejected (example_os ["/bin/cmd"]) (initial_state true)
    ["cmd", "a", ">", "b", ">", "c"] [] 8 (by decide)
    (by
      intro front _ _ hc
      have h2 := congrArg List.getLast? hc
      simp at h2)).1
  rw [h]
  exact ⟨rfl, rfl⟩

/-! ## Stores into the slot arrays -/

theorem store_append_cons {α : Type} (l r : List (Option α)) (x v : Option α) :
    store (l ++ x :: r) l.length v = l ++ v :: r := by
  simp [store]

theorem store_getD_zero {α : Type} (l : List (Option α)) (k : Nat) (v : Option α)
    (hk : k ≠ 0) (hl : l ≠ []) : (store l k v).getD 0 none = l.getD 0 none := by
  cases l with
  | nil => exact absurd rfl hl
  | cons a t =>
    cases k with
    | zero => exact absurd rfl hk
    | succ k =>
      unfold store
      split
      · simp [List.set]
      · simp

/-! ## The path loop and the registry -/

theorem snprintf_fits (s : String) (h : s.length < MAX_COMMAND_SIZE) :
    snprintf MAX_COMMAND_SIZE s = s := by
  have h2 : s.data.length ≤ MAX_COMMAND_SIZE - 1 := by
    have : s.data.length = s.length := rfl
    omega
  simp [snprintf, List.take_of_length_le h2]

theorem path_search_first (os : OS) (name : String) (fs : String → Bool)
    (front : List String) (d : String) (back : List String) (st : ShellState)
    (hfs : ∀ t, st.clock ≤ t → os.access t = fs)
    (hfit : ∀ e ∈ front ++ d :: back, (e ++ "/" ++ name).length < MAX_COMMAND_SIZE)
    (hfront : ∀ e ∈ front, fs (e ++ "/" ++ name) = false)
    (hd : fs (d ++ "/" ++ name) = true) :
    (path_search os name (front ++ d :: back) st).1 = EXIT_SUCCESS
    ∧ (path_search os name (front ++ d :: back) st).2.file_path = d ++ "/" ++ name := by
  induction front generalizing st with
  | nil =>
    have hs := snprintf_fits (d ++ "/" ++ name) (hfit d (by simp))
    simp [path_search, hs, hfs st.clock (Nat.le_refl _), hd, emit]
  | cons e front ih =>
    have hs := snprintf_fits (e ++ "/" ++ name) (hfit e (by simp))
    have he : fs (e ++ "/" ++ name) = false := hfront e (by simp)
    simp only [List.cons_append, path_search, hs, hfs st.clock (Nat.le_refl _), he]
    apply ih
    · intro t ht
      exact hfs t (by simp [emit] at ht; omega)
    · intro x hx
      exact hfit x (by simp at hx ⊢; tauto)
    · intro x hx
      exact hfront x (by simp [hx])

theorem path_search_none (os : OS) (name : String) (fs : String → Bool)
    (l : List String) (st : ShellState)
    (hfs : ∀ t, st.clock ≤ t → os.access t = fs)
    (hfit : ∀ e ∈ l, (e ++ "/" ++ name).length < MAX_COMMAND_SIZE)
    (hall : ∀ e ∈ l, fs (e ++ "/" ++ name) = false) :
    (path_search os name l st).1 = EXIT_FAILURE := by
  induction l generalizing st with
  | nil => rfl
  | cons e l ih =>
    have hs := snprintf_fits (e ++ "/" ++ name) (hfit e (by simp))
    have he : fs (e ++ "/" ++ name) = false := hall e (by simp)
    simp only [path_search, hs, hfs st.clock (Nat.le_refl _), he]
    apply ih
    · intro t ht
      exact hfs t (by simp [emit] at ht; omega)
    · intro x hx
      exact hfit x (by simp [hx])
    · intro x hx
      exact hall x (by simp [hx])

theorem ensure_path_capacity_entries (arr : path_array_t) :
    (ensure_path_capacity arr).entries = arr.entries := by
  unfold ensure_path_capacity
  split <;> rfl

theorem path_fill_entries (ds : List String) (stale : List (Option String)) (cap : Nat)
    (n i : Nat) (arr : path_array_t) (hn : i + n = ds.length + 1) (hi : 1 ≤ i) :
    (path_fill (mk_cmd ("path" :: ds) stale cap) n i arr).entries
      = arr.entries ++ ds.drop (i - 1) := by
  induction n generalizing i arr with
  | zero =>
    have : ds.length ≤ i - 1 := by omega
    simp [path_fill, List.drop_of_length_le this]
  | succ n ih =>
    have hlt : i < ("path" :: ds).length := by simp; omega
    have hlt2 : i - 1 < ds.length := by omega
    have harg : arg (mk_cmd ("path" :: ds) stale cap) i = some (ds.get ⟨i - 1, hlt2⟩) := by
      rw [arg_mk_cmd_lt _ stale cap i hlt]
      obtain ⟨j, rfl⟩ : ∃ j, i = j + 1 := ⟨i - 1, by omega⟩
      simp
    simp only [path_fill, harg, cstr, Option.getD_some]
    rw [ih (i + 1) _ (by omega) (by omega), ensure_path_capacity_entries]
    have hd : ds.drop (i - 1) = ds.get ⟨i - 1, hlt2⟩ :: ds.drop (i + 1 - 1) := by
      have : i + 1 - 1 = i - 1 + 1 := by omega
      rw [this]
      exact List.drop_eq_getElem_cons hlt2
    rw [hd]
    simp

theorem path_builtin_entries (os : OS) (st : ShellState) (ds : List String)
    (stale : List (Option String)) (cap : Nat) :
    (run_command os st (mk_cmd ("path" :: ds) stale cap)).2.1.path_arr.entries = ds := by
  have h0 := arg_mk_cmd_zero "path" ds stale cap
  have hs : (mk_cmd ("path" :: ds) stale cap).size = ds.length + 1 := by simp [mk_cmd]
  have hf := path_fill_entries ds stale cap ds.length 1 { st.path_arr with entries := [] }
    (by omega) (Nat.le_refl 1)
  simp [run_command, h0, hs, hf]

/-- C2: after `run_cmd` dispatches `path d1 ... dn` the registry is exactly `[d1, ..., dn]`;
and in any later state `st2` with that registry, for a name that is not executable as given
(the file system `fs` not changing during the call, every joined path fitting the buffer),
`check_executable_access` succeeds with `file_path = di/name` for the first `di` whose joined
path is executable, and fails when there is none. -/
theorem path_sets_registry_and_resolution_order (os : OS) (st : ShellState)
    (ds : List String) (stale : List (Option String)) (cap : Nat)
    (st2 : ShellState) (name : String) (fs : String → Bool)
    (hreg : st2.path_arr = (run_command os st (mk_cmd ("path" :: ds) stale cap)).2.1.path_arr)
    (hfs : ∀ t, st2.clock ≤ t → os.access t = fs)
    (hname : fs name = false)
    (hfit : ∀ d ∈ ds, (d ++ "/" ++ name).length < MAX_COMMAND_SIZE) :
    (run_command os st (mk_cmd ("path" :: ds) stale cap)).2.1.path_arr.entries = ds
    ∧ (∀ front d back, ds = front ++ d :: back →
        (∀ e ∈ front, fs (e ++ "/" ++ name) = false) → fs (d ++ "/" ++ name) = true →
          (check_executable_access os st2 name).1 = EXIT_SUCCESS
          ∧ (check_executable_access os st2 name).2.file_path = d ++ "/" ++ name)
    ∧ ((∀ e ∈ ds, fs (e ++ "/" ++ name) = false) →
        (check_executable_access os st2 name).1 = EXIT_FAILURE) := by
  have hent := path_builtin_entries os st ds stale cap
  have hent2 : st2.path_arr.entries = ds := by rw [hreg, hent]
  have hacc : os.access st2.clock name = false := by
    rw [hfs st2.clock (Nat.le_refl _)]; exact hname
  have hfs2 : ∀ t, (emit st2 (Event.access name false)).clock ≤ t → os.access t = fs := by
    intro t ht
    exact hfs t (by simp [emit] at ht; omega)
  have hchk : check_executable_access os st2 name
      = path_search os name ds (emit st2 (Event.access name false)) := by
    simp [check_executable_access, hacc, emit, hent2]
  refine ⟨hent, ?_, ?_⟩
  · intro front d back hds hfront hd
    rw [hchk, hds]
    exact path_search_first os name fs front d back _ hfs2 (by rw [← hds]; exact hfit) hfront hd
  · intro hall
    rw [hchk]
    exact path_search_none os name fs ds _ hfs2 hfit hall

/-- Witness for C2: `path /a /b /c`, then `ls`, found only under `/b`. -/
theorem path_sets_registry_and_resolution_order_witness :
    (run_command (example_os ["/b/ls"]) (initial_state true)
      (mk_cmd ["path", "/a", "/b", "/c"] [] 4)).2.1.path_arr.entries = ["/a", "/b", "/c"]
    ∧ (check_executable_access (example_os ["/b/ls"])
        (run_command (example_os ["/b/ls"]) (initial_state true)
          (mk_cmd ["path", "/a", "/b", "/c"] [] 4)).2.1 "ls").1 = EXIT_SUCCESS
    ∧ (check_executable_access (example_os ["/b/ls"])
        (run_command (example_os ["/b/ls"]) (initial_state true)
          (mk_cmd ["path", "/a", "/b", "/c"] [] 4)).2.1 "ls").2.file_path = "/b" ++ "/" ++ "ls" := by
  have h := path_sets_registry_and_resolution_order (example_os ["/b/ls"]) (initial_state true)
    ["/a", "/b", "/c"] [] 4
    (run_command (example_os ["/b/ls"]) (initial_state true)
      (mk_cmd ["path", "/a", "/b", "/c"] [] 4)).2.1
    "ls" (fun p => decide (p ∈ ["/b/ls"])) rfl (fun _ _ => rfl) (by decide) (by decide)
  exact ⟨h.1, h.2.1 ["/a"] "/b" ["/c"] rfl (by decide) (by decide)⟩

/-- Counterexample to C3: after `path` with no arguments the registry is empty, but the
bare name `ls` is executable as given (a file `ls` in the working directory), so
`run_external_cmd` resolves it and forks a child instead of reporting "not found". -/
theorem empty_registry_resolves_name_as_given :
    (run_command (example_os ["ls"]) (initial_state true)
      (mk_cmd ["path"] [] 2)).2.1.path_arr.entries = []
    ∧ (run_external_cmd (example_os ["ls"])
        (run_command (example_os ["ls"]) (initial_state true) (mk_cmd ["path"] [] 2)).2.1
        (mk_cmd ["ls"] [] 2)).2.1.trace
        = [Event.access "ls" true, Event.fork (some 101)]
    ∧ (run_external_cmd (example_os ["ls"])
        (run_command (example_os ["ls"]) (initial_state true) (mk_cmd ["path"] [] 2)).2.1
        (mk_cmd ["ls"] [] 2)).2.1.children
        = [{ pid := 101, file_path := "ls", args := [some "ls", none], ri := none }] := by
  refine ⟨by rfl, by rfl, by rfl⟩

/-- C3 (amended): after `path` is dispatched with no arguments, in any later state `st2`
with that registry, for every invocation that passes the redirection check and whose command
name is not executable as given, `run_external_cmd` takes the "not found" branch: the one
`access` call fails, the not-found message is printed, the status is the failure status and
no child is created. -/
theorem empty_registry_not_found (os : OS) (st : ShellState) (stale : List (Option String))
    (cap : Nat) (st2 : ShellState) (c : cmd_t) (name : String)
    (hreg : st2.path_arr = (run_command os st (mk_cmd ["path"] stale cap)).2.1.path_arr)
    (hredir : ∀ k, find_redirect c c.size 0 = some k → bad_redirect c k = false)
    (h0 : arg c 0 = some name)
    (hacc : os.access st2.clock name = false) :
    (run_external_cmd os st2 c).1 = EXIT_FAILURE
    ∧ (run_external_cmd os st2 c).2.1
        = emit (emit st2 (Event.access name false))
            (Event.stderr (not_found_message st2.batch_mode name))
    ∧ (run_external_cmd os st2 c).2.1.trace
        = st2.trace ++ [Event.access name false,
            Event.stderr (not_found_message st2.batch_mode name)]
    ∧ (run_external_cmd os st2 c).2.1.children = st2.children := by
  have hent : st2.path_arr.entries = [] := by
    rw [hreg]; exact path_builtin_entries os st [] stale cap
  have hchk : check_executable_access os st2 name
      = (EXIT_FAILURE, emit st2 (Event.access name false)) := by
    simp [check_executable_access, hacc, emit, hent, path_search]
  have hne : c.args ≠ [] := by
    intro h
    simp [arg, h] at h0
  have key : (run_external_cmd os st2 c).1 = EXIT_FAILURE
      ∧ (run_external_cmd os st2 c).2.1
        = emit (emit st2 (Event.access name false))
            (Event.stderr (not_found_message st2.batch_mode name)) := by
    cases hf : find_redirect c c.size 0 with
    | none =>
      simp [run_external_cmd, resolve_and_fork, hf, h0, cstr, hchk, EXIT_SUCCESS, EXIT_FAILURE, emit]
    | some k =>
      have hb := hredir k hf
      have hk : k ≠ 0 := by
        intro hk
        simp [bad_redirect, hk] at hb
      have h1 : arg { c with args := store c.args k none } 0 = some name := by
        simp only [arg] at h0 ⊢
        rw [store_getD_zero c.args k none hk hne]
        exact h0
      simp [run_external_cmd, resolve_and_fork, hf, hb, h1, cstr, hchk, EXIT_SUCCESS, EXIT_FAILURE, emit]
  refine ⟨key.1, key.2, ?_, ?_⟩
  · rw [key.2]; simp [emit]
  · rw [key.2]; rfl

/-- Witness for C3 (amended): `path`, then `ls -l` with no `ls` in the working directory. -/
theorem empty_registry_not_found_witness :
    (run_external_cmd (example_os ["/bin/ls"])
      (run_command (example_os ["/bin/ls"]) (initial_state true) (mk_cmd ["path"] [] 2)).2.1
      (mk_cmd ["ls", "-l"] [] 2)).2.1.trace
      = [] ++ [Event.access "ls" false, Event.stderr (not_found_message true "ls")] :=
  (empty_registry_not_found (example_os ["/bin/ls"]) (initial_state true) [] 2
    (run_command (example_os ["/bin/ls"]) (initial_state true) (mk_cmd ["path"] [] 2)).2.1
    (mk_cmd ["ls", "-l"] [] 2) "ls" rfl (by decide) (by decide) (by decide)).2.2.1

/-! ## What resolution leaves unchanged -/

theorem path_search_frame (os : OS) (name : String) (l : List String) (st : ShellState) :
    (path_search os name l st).2.children = st.children
    ∧ (path_search os name l st).2.cmd_list = st.cmd_list
    ∧ (path_search os name l st).2.batch_mode = st.batch_mode
    ∧ (path_search os name l st).2.path_arr = st.path_arr := by
  induction l generalizing st with
  | nil => simp [path_search]
  | cons d l ih =>
    simp only [path_search]
    split
    · simp [emit]
    · have h := ih (emit { st with file_path := snprintf MAX_COMMAND_SIZE (d ++ "/" ++ name) }
        (Event.access (snprintf MAX_COMMAND_SIZE (d ++ "/" ++ name))
          (os.access st.clock (snprintf MAX_COMMAND_SIZE (d ++ "/" ++ name)))))
      simpa [emit] using h

theorem check_executable_access_frame (os : OS) (st : ShellState) (name : String) :
    (check_executable_access os st name).2.children = st.children
    ∧ (check_executable_access os st name).2.cmd_list = st.cmd_list
    ∧ (check_executable_access os st name).2.batch_mode = st.batch_mode
    ∧ (check_executable_access os st name).2.path_arr = st.path_arr := by
  simp only [check_executable_access]
  split
  · simp [emit]
  · have h := path_search_frame os name (emit st (Event.access name (os.access st.clock name))).path_arr.entries
      (emit st (Event.access name (os.access st.clock name)))
    simpa [emit] using h

theorem argv_of_terminated (toks : List String) (tail : List (Option String)) :
    argv_of (toks.map some ++ none :: tail) = toks := by
  induction toks with
  | nil => simp [argv_of]
  | cons t toks ih =>
    simp only [argv_of] at ih ⊢
    simp [List.takeWhile_cons, ih]

/-- C6: for an invocation `t0 ... t(k-1) > f` (no `ti` equal to `>`) whose program resolves
and whose `fork` succeeds, the child created by `run_external_cmd` runs with `file_path` the
resolved path and an `args` array that `execv` reads as exactly `[t0, ..., t(k-1)]`; the
child opens `f` first, and when that succeeds it redirects both streams to it and calls
`execv` with that vector.  `run_cmd` reaches this path when `t0` is not a built-in. -/
theorem redirection_argv_and_target (os : OS) (st : ShellState) (t0 : String)
    (rest : List String) (f : String) (stale : List (Option String)) (cap pid : Nat)
    (hmark : ">" ∉ t0 :: rest)
    (hres : (check_executable_access os st t0).1 = EXIT_SUCCESS)
    (hfork : os.fork (check_executable_access os st t0).2.clock = some pid) :
    (run_external_cmd os st (mk_cmd (t0 :: rest ++ [">", f]) stale cap)).2.1.children
      = st.children ++
          [{ pid := pid, file_path := (check_executable_access os st t0).2.file_path,
             args := (t0 :: rest).map some ++ none :: some f :: none :: stale,
             ri := some (t0 :: rest).length }]
    ∧ argv_of ((t0 :: rest).map some ++ none :: some f :: none :: stale) = t0 :: rest
    ∧ (∀ (exec_ok : Bool) (err : String),
        child_main
          { pid := pid, file_path := (check_executable_access os st t0).2.file_path,
            args := (t0 :: rest).map some ++ none :: some f :: none :: stale,
            ri := some (t0 :: rest).length } true exec_ok err
        = [ChildEvent.open_file f true, ChildEvent.dup2_stdout, ChildEvent.dup2_stderr,
            ChildEvent.close,
            ChildEvent.execv (check_executable_access os st t0).2.file_path (t0 :: rest) exec_ok]
          ++ (if exec_ok then []
              else [ChildEvent.stderr ("error: " ++ err ++ "\n"), ChildEvent.exit EXIT_FAILURE]))
    ∧ (∀ (exec_ok : Bool) (err : String),
        child_main
          { pid := pid, file_path := (check_executable_access os st t0).2.file_path,
            args := (t0 :: rest).map some ++ none :: some f :: none :: stale,
            ri := some (t0 :: rest).length } false exec_ok err
        = [ChildEvent.open_file f false, ChildEvent.stderr ("error: " ++ err ++ "\n"),
            ChildEvent.exit EXIT_FAILURE])
    ∧ (is_builtin t0 = false →
        run_command os st (mk_cmd (t0 :: rest ++ [">", f]) stale cap)
          = run_external_cmd os st (mk_cmd (t0 :: rest ++ [">", f]) stale cap)) := by
  have hargv := argv_of_terminated (t0 :: rest) (some f :: none :: stale)
  have hf := find_redirect_mk_cmd_some (t0 :: rest) [f] stale cap hmark
  have hrw : t0 :: rest ++ [">", f] = (t0 :: rest) ++ ">" :: [f] := rfl
  have hb : bad_redirect (mk_cmd ((t0 :: rest) ++ ">" :: [f]) stale cap) (t0 :: rest).length
      = false := by
    simp [bad_redirect, mk_cmd]
  have hst : store (mk_cmd ((t0 :: rest) ++ ">" :: [f]) stale cap).args (t0 :: rest).length none
      = (t0 :: rest).map some ++ none :: some f :: none :: stale := by
    have := store_append_cons ((t0 :: rest).map some) (some f :: none :: stale) (some ">") none
    simpa [mk_cmd] using this
  have htarget : ((t0 :: rest).map some ++ none :: some f :: none :: stale).getD
      ((t0 :: rest).length + 1) none = some f := by
    have hle : ((t0 :: rest).map some).length ≤ (t0 :: rest).length + 1 := by simp
    rw [List.getD_append_right _ _ _ _ hle]
    simp
  refine ⟨?_, hargv, ?_, ?_, ?_⟩
  · rw [hrw]
    simp only [run_external_cmd, resolve_and_fork, hf, hb, hst]
    simp [arg, cstr, hres, hfork, emit, (check_executable_access_frame os st t0).1]
  · intro exec_ok err
    simp only [child_main, hargv, htarget, cstr]
    simp
  · intro exec_ok err
    simp only [child_main, htarget, cstr]
    simp
  · intro hbi
    exact run_command_external os st _ t0 (by simp [mk_cmd]) (by simp [arg, mk_cmd]) hbi

/-- Witness for C6: `echo hi > out.txt` with `/bin/echo` executable. -/
theorem redirection_argv_and_target_witness :
    (run_external_cmd (example_os ["/bin/echo"]) (initial_state true)
      (mk_cmd ("echo" :: ["hi"] ++ [">", "out.txt"]) [] 4)).2.1.children
      = [] ++ [{ pid := 102, file_path := "/bin/echo",
                 args := ["echo", "hi"].map some ++ none :: some "out.txt" :: none :: [],
                 ri := some 2 }]
    ∧ argv_of (["echo", "hi"].map some ++ none :: some "out.txt" :: none :: []) = ["echo", "hi"] :=
  ⟨(redirection_argv_and_target (example_os ["/bin/echo"]) (initial_state true) "echo" ["hi"]
      "out.txt" [] 4 102 (by decide) (by decide) (by decide)).1,
   (redirection_argv_and_target (example_os ["/bin/echo"]) (initial_state true) "echo" ["hi"]
      "out.txt" [] 4 102 (by decide) (by decide) (by decide)).2.1⟩

/-- C10 fails on the code: for the first line `ls -l` the first segment holds two tokens, so
when `start_shell` writes the terminator at `args[size]` both `size` and `capacity` are 2
(`ensure_cmd_capacity` ran only before each token was stored) and the write is one slot
past the array. -/
theorem terminator_written_past_capacity :
    strtok_r ['&'] "ls -l\n".data = some ("ls -l\n".data, [])
    ∧ cmd_at (parse_line init_cmd_list "ls -l\n".data) 0
        = { args := [some "ls", some "-l", none], size := 2, capacity := 2 }
    ∧ (segment_cmd (ensure_cmd_list_capacity init_cmd_list) "ls -l\n".data).size = 2
    ∧ (segment_cmd (ensure_cmd_list_capacity init_cmd_list) "ls -l\n".data).capacity = 2
    ∧ ¬ ((segment_cmd (ensure_cmd_list_capacity init_cmd_list) "ls -l\n".data).size
          < (segment_cmd (ensure_cmd_list_capacity init_cmd_list) "ls -l\n".data).capacity) := by
  refine ⟨by rfl, by rfl, by rfl, by rfl, by decide⟩

/-- C8 fails on the code: in batch mode the script `ls` (no newline after the last line) is
read by `fgets`, but `feof` is then true and the loop ends with nothing dispatched, although
`/bin/ls` is executable; the same line followed by a newline is resolved, forked and awaited. -/
theorem last_line_without_newline_dropped :
    fgets MAX_COMMAND_SIZE (stream_of "ls") = (some "ls".data, { data := [], eof := true })
    ∧ (start_shell (example_os ["/bin/ls"]) (initial_state true) (stream_of "ls")).1
        = Outcome.terminated
    ∧ (start_shell (example_os ["/bin/ls"]) (initial_state true) (stream_of "ls")).2.1.trace = []
    ∧ (start_shell (example_os ["/bin/ls"]) (initial_state true) (stream_of "ls\n")).2.1.trace
        = [Event.access "ls" false, Event.access "/bin/ls" true, Event.fork (some 102),
           Event.wait (some 102)] := by
  refine ⟨by rfl, by rfl, by rfl, by rfl⟩

/-- Counterexample to C7: in batch mode one pass of `start_shell` over the line `&&` reports
nothing at all (the trace stays empty) and goes on to the next line. -/
theorem empty_segments_report_nothing :
    (shell_iteration (example_os []) (initial_state true) (stream_of "&&\n")).1 = Outcome.next
    ∧ (shell_iteration (example_os []) (initial_state true) (stream_of "&&\n")).2.1.trace = [] := by
  refine ⟨by rfl, by rfl⟩

/-! ## Event summaries of resolution, dispatch and await -/

theorem fgets_empty_segments (rest : List Char) :
    fgets MAX_COMMAND_SIZE { data := '&' :: '&' :: '\n' :: rest, eof := false }
      = (some ['&', '&', '\n'], { data := rest, eof := false }) := by
  simp [fgets, MAX_COMMAND_SIZE, fgets_loop]

theorem store_zero_getElem {α : Type} (l : List (Option α)) (v : Option α) :
    (store l 0 v)[0]?.getD none = v := by
  cases l with
  | nil => simp [store]
  | cons a t => simp [store]

theorem ensure_cmd_list_capacity_size (cl : cmd_list_t) :
    (ensure_cmd_list_capacity cl).size = cl.size := by
  unfold ensure_cmd_list_capacity
  split <;> rfl

theorem ensure_cmd_list_capacity_commands (cl : cmd_list_t) :
    (ensure_cmd_list_capacity cl).commands = cl.commands := by
  unfold ensure_cmd_list_capacity
  split <;> rfl

theorem c_string_empty_segments : c_string ['&', '&', '\n'] = ['&', '&', '\n'] := by
  rfl

theorem parse_line_empty_segments (cl : cmd_list_t) :
    (parse_line cl ['&', '&', '\n']).size = 0 := by
  have h1 : strtok_r ['&'] ['&', '&', '\n'] = some (['\n'], []) := by rfl
  have h2 : strtok_r ['&'] [] = none := by rfl
  have h3 : strtok_r [' ', '\n', '\t'] ['\n'] = none := by rfl
  simp [parse_line, segment_loop, h1, h2, segment_cmd, token_loop, h3, cmd_at,
    ensure_cmd_list_capacity_size, ensure_cmd_list_capacity_commands, store_zero_getElem]

theorem show_prompt_frame (os : OS) (st : ShellState) :
    (show_prompt os st).children = st.children
    ∧ (show_prompt os st).cmd_list = st.cmd_list
    ∧ (show_prompt os st).batch_mode = st.batch_mode
    ∧ ∃ evs, (show_prompt os st).trace = st.trace ++ evs
        ∧ ∀ e ∈ evs, is_wait e = false ∧ is_spawn e = false ∧ is_stderr e = false := by
  unfold show_prompt
  cases os.getcwd st.clock with
  | none =>
    refine ⟨rfl, rfl, rfl, [Event.getcwd none, Event.stdout "wish>"], by simp [emit], ?_⟩
    intro e he
    simp at he
    rcases he with h | h <;> subst h <;> exact ⟨rfl, rfl, rfl⟩
  | some d =>
    refine ⟨rfl, rfl, rfl,
      [Event.getcwd (some d), Event.stdout (d ++ "\n"), Event.stdout "wish>"], by simp [emit], ?_⟩
    intro e he
    simp at he
    rcases he with h | h | h <;> subst h <;> exact ⟨rfl, rfl, rfl⟩

/-- C7 (amended): one pass of `start_shell` over the line `&&` followed by a newline
dispatches no invocation (the list of commands is empty), writes nothing to standard error,
creates no child, and ends in the state that reads the next line; besides the prompt, only
the blank line of interactive mode is printed. -/
theorem empty_segments_line_is_silent (os : OS) (st : ShellState) (rest : List Char) :
    (shell_iteration os st { data := '&' :: '&' :: '\n' :: rest, eof := false }).1 = Outcome.next
    ∧ (shell_iteration os st { data := '&' :: '&' :: '\n' :: rest, eof := false }).2.1.trace
        = (if st.batch_mode then st else show_prompt os st).trace
            ++ (if st.batch_mode then [] else [Event.stdout "\n"])
    ∧ (∀ e ∈ (shell_iteration os st
          { data := '&' :: '&' :: '\n' :: rest, eof := false }).2.1.trace,
        is_stderr e = true → e ∈ st.trace)
    ∧ (shell_iteration os st
          { data := '&' :: '&' :: '\n' :: rest, eof := false }).2.1.children = st.children
    ∧ (shell_iteration os st
          { data := '&' :: '&' :: '\n' :: rest, eof := false }).2.1.cmd_list.size = 0
    ∧ (shell_iteration os st { data := '&' :: '&' :: '\n' :: rest, eof := false }).2.2
        = { data := rest, eof := false } := by
  obtain ⟨p1, p2, p3, evs, p4, p5⟩ := show_prompt_frame os st
  have hp := parse_line_empty_segments st.cmd_list
  by_cases hb : st.batch_mode = true
  · simp [shell_iteration, fgets_empty_segments, feof, process_line, run_line,
      c_string_empty_segments, hb, hp, dispatch, await_children, EXIT_SUCCESS, EXIT_FAILURE]
    intro e he _
    exact he
  · have hp2 := parse_line_empty_segments (show_prompt os st).cmd_list
    have hb2 : (show_prompt os st).batch_mode = false := by rw [p3]; simpa using hb
    simp only [Bool.not_eq_true] at hb
    simp [shell_iteration, fgets_empty_segments, feof, process_line, run_line,
      c_string_empty_segments, hb, hb2, hp2, dispatch, await_children, EXIT_SUCCESS,
      EXIT_FAILURE, emit, p1]
    intro e he hs
    rw [p4] at he
    rcases he with h | h
    · rcases List.mem_append.mp h with h | h
      · exact h
      · rw [(p5 e h).2.2] at hs
        exact absurd hs (by simp)
    · subst h
      exact absurd hs (by simp [is_stderr])

/-- On a fresh list a third segment reads the slot that `realloc` added (`ls & pwd & date`),
and a segment of two tokens puts its terminator past the two-slot array (`ls -l`); one or
two segments of one token each do neither (`ls`, `ls & pwd`), and `ls & pwd` is parsed
into `two_commands`. -/
theorem parse_undefined_examples :
    parse_undefined init_cmd_list "ls & pwd & date\n".data = true
    ∧ parse_undefined init_cmd_list "ls -l\n".data = true
    ∧ parse_undefined init_cmd_list "ls & pwd\n".data = false
    ∧ parse_undefined init_cmd_list "ls\n".data = false
    ∧ parse_line init_cmd_list (c_string "ls & pwd\n".data) = two_commands := by
  refine ⟨by rfl, by rfl, by rfl, by rfl, by rfl⟩

/-! ## The fuel of the loops is never what ends them -/

theorem strtok_r_shorter (delim s tk rest : List Char)
    (h : strtok_r delim s = some (tk, rest)) : rest.length < s.length := by
  unfold strtok_r at h
  simp only at h
  split at h
  · exact absurd h (by simp)
  · rename_i hne
    simp only [Option.some.injEq, Prod.mk.injEq] at h
    obtain ⟨_, hr⟩ := h
    have h1 : (s.dropWhile (fun ch => decide (ch ∈ delim))).length ≤ s.length :=
      (List.dropWhile_suffix _).length_le
    have h2 : ((s.dropWhile (fun ch => decide (ch ∈ delim))).dropWhile
        (fun ch => ! decide (ch ∈ delim))).length
        ≤ (s.dropWhile (fun ch => decide (ch ∈ delim))).length :=
      (List.dropWhile_suffix _).length_le
    have h3 : 0 < (s.dropWhile (fun ch => decide (ch ∈ delim))).length :=
      List.length_pos.mpr hne
    rw [← hr, List.length_drop]
    omega

theorem token_loop_fuel_enough (f1 f2 : Nat) (c : cmd_t) (tp : List Char)
    (h1 : tp.length < f1) (h2 : tp.length < f2) : token_loop f1 c tp = token_loop f2 c tp := by
  induction f1 generalizing f2 c tp with
  | zero => omega
  | succ f1 ih =>
    cases f2 with
    | zero => omega
    | succ f2 =>
      simp only [token_loop]
      cases hs : strtok_r [' ', '\n', '\t'] tp with
      | none => rfl
      | some p =>
        obtain ⟨tk, tp1⟩ := p
        have hlt := strtok_r_shorter _ _ _ _ hs
        exact ih f2 _ tp1 (by omega) (by omega)

theorem segment_loop_fuel_enough (f1 f2 : Nat) (cl : cmd_list_t) (scp : List Char)
    (h1 : scp.length < f1) (h2 : scp.length < f2) :
    segment_loop f1 cl scp = segment_loop f2 cl scp := by
  induction f1 generalizing f2 cl scp with
  | zero => omega
  | succ f1 ih =>
    cases f2 with
    | zero => omega
    | succ f2 =>
      simp only [segment_loop]
      cases hs : strtok_r ['&'] scp with
      | none => rfl
      | some p =>
        obtain ⟨sc_line, scp1⟩ := p
        have hlt := strtok_r_shorter _ _ _ _ hs
        exact ih f2 _ scp1 (by omega) (by omega)

theorem fgets_loop_rest (k : Nat) (acc rest : List Char) :
    (fgets_loop k acc rest).2.1.length ≤ rest.length
    ∧ (0 < k → rest ≠ [] → (fgets_loop k acc rest).2.1.length < rest.length) := by
  induction k generalizing acc rest with
  | zero => simp [fgets_loop]
  | succ k ih =>
    cases rest with
    | nil => simp [fgets_loop]
    | cons ch rest =>
      simp only [fgets_loop]
      split
      · simp
      · have := (ih (acc ++ [ch]) rest).1
        simp only [List.length_cons]
        exact ⟨by omega, fun _ _ => by omega⟩

theorem shell_iteration_consumes (os : OS) (st st1 : ShellState) (inp inp1 : FILE)
    (h : shell_iteration os st inp = (Outcome.next, st1, inp1)) :
    inp1.data.length < inp.data.length := by
  simp only [shell_iteration] at h
  split at h
  · exact absurd (congrArg Prod.fst h) (by simp)
  · rename_i line hline
    split at h
    · exact absurd (congrArg Prod.fst h) (by simp)
    · have hinp : inp1 = (fgets MAX_COMMAND_SIZE inp).2 := (congrArg (fun r => r.2.2) h).symm
      rw [hinp]
      have hl := fgets_loop_rest (MAX_COMMAND_SIZE - 1) [] inp.data
      cases hd : inp.data with
      | nil =>
        simp [fgets, hd, MAX_COMMAND_SIZE, fgets_loop] at hline
      | cons ch rest =>
        have := hl.2 (by decide) (by simp [hd])
        rw [hd] at this
        simp only [fgets]
        split <;> simpa [hd] using this

/-- With more passes allowed than the stream has bytes, `shell_loop` ends by a `break` (or by
a `wait` that never returns), never by the bound on the number of passes. -/
theorem shell_loop_stops (os : OS) (fuel : Nat) (st : ShellState) (inp : FILE)
    (h : inp.data.length < fuel) : (shell_loop os fuel st inp).1 ≠ Outcome.next := by
  induction fuel generalizing st inp with
  | zero => omega
  | succ fuel ih =>
    simp only [shell_loop]
    split
    · rename_i st1 inp1 hit
      have := shell_iteration_consumes os st st1 inp inp1 hit
      exact ih st1 inp1 (by omega)
    · rename_i r hr
      intro hc
      exact hr (shell_iteration os st inp).2.1 (shell_iteration os st inp).2.2 (by rw [← hc])

theorem shell_loop_fuel_enough (os : OS) (f1 f2 : Nat) (st : ShellState) (inp : FILE)
    (h1 : inp.data.length < f1) (h2 : inp.data.length < f2) :
    shell_loop os f1 st inp = shell_loop os f2 st inp := by
  induction f1 generalizing f2 st inp with
  | zero => omega
  | succ f1 ih =>
    cases f2 with
    | zero => omega
    | succ f2 =>
      simp only [shell_loop]
      split
      · rename_i st1 inp1 hit
        have := shell_iteration_consumes os st st1 inp inp1 hit
        exact ih f2 st1 inp1 (by omega) (by omega)
      · rfl

theorem start_shell_stops (os : OS) (st : ShellState) (inp : FILE) :
    (start_shell os st inp).1 ≠ Outcome.next :=
  shell_loop_stops os _ st inp (Nat.lt_succ_self _)

/-! ## The commands the tokenizer builds -/

theorem store_le_length {α : Type} (l : List (Option α)) (i : Nat) (v : Option α)
    (h : i ≤ l.length) : store l i v = l.take i ++ v :: l.drop (i + 1) := by
  unfold store
  split
  · rename_i hlt
    rw [List.set_eq_take_append_cons_drop, if_pos hlt]
  · have he : i = l.length := by omega
    subst he
    simp

theorem ensure_cmd_capacity_fields (c : cmd_t) :
    (ensure_cmd_capacity c).args = c.args ∧ (ensure_cmd_capacity c).size = c.size := by
  unfold ensure_cmd_capacity
  split <;> exact ⟨rfl, rfl⟩

theorem token_loop_shape (fuel : Nat) (c : cmd_t) (tp : List Char) (toks : List String)
    (hlen : c.size ≤ c.args.length) (hsize : toks.length = c.size)
    (htake : c.args.take c.size = toks.map some) :
    ∃ toks1 : List String,
      (token_loop fuel c tp).size ≤ (token_loop fuel c tp).args.length
      ∧ toks1.length = (token_loop fuel c tp).size
      ∧ (token_loop fuel c tp).args.take (token_loop fuel c tp).size = toks1.map some := by
  induction fuel generalizing c tp toks with
  | zero => exact ⟨toks, hlen, hsize, htake⟩
  | succ fuel ih =>
    simp only [token_loop]
    cases hs : strtok_r [' ', '\n', '\t'] tp with
    | none => exact ⟨toks, hlen, hsize, htake⟩
    | some p =>
      obtain ⟨tk, tp1⟩ := p
      obtain ⟨ha, hz⟩ := ensure_cmd_capacity_fields c
      simp only [ha, hz]
      have hst := store_le_length c.args c.size (some (String.mk tk)) hlen
      apply ih _ tp1 (toks ++ [String.mk tk])
      · simp only [hst, List.length_append, List.length_take, List.length_cons,
          List.length_drop]
        omega
      · simp [hsize]
      · simp only [hst]
        have hl : (c.args.take c.size).length = c.size := by
          rw [List.length_take]; omega
        rw [List.take_append_eq_append_take, hl]
        have h0 : c.size + 1 - c.size = 1 := by omega
        rw [h0, List.take_of_length_le (by omega : (c.args.take c.size).length ≤ c.size + 1)]
        simp [htake]

/-- Every command the tokenizer stores in the list has the shape of `mk_cmd`: the tokens of
the segment, the `NULL` terminator, then whatever an earlier line left in the array. -/
theorem segment_cmd_shape (cl : cmd_list_t) (sc_line : List Char) :
    ∃ (toks : List String) (stale : List (Option String)),
      ({ segment_cmd cl sc_line with
          args := store (segment_cmd cl sc_line).args (segment_cmd cl sc_line).size none } : cmd_t)
        = mk_cmd toks stale (segment_cmd cl sc_line).capacity := by
  obtain ⟨toks, h1, h2, h3⟩ : ∃ toks : List String,
      (segment_cmd cl sc_line).size ≤ (segment_cmd cl sc_line).args.length
      ∧ toks.length = (segment_cmd cl sc_line).size
      ∧ (segment_cmd cl sc_line).args.take (segment_cmd cl sc_line).size = toks.map some := by
    unfold segment_cmd
    exact token_loop_shape _ _ _ [] (by simp) (by simp) (by simp)
  refine ⟨toks, (segment_cmd cl sc_line).args.drop ((segment_cmd cl sc_line).size + 1), ?_⟩
  rw [store_le_length _ _ _ h1, h3]
  simp [mk_cmd, h2]

theorem store_get_below {α : Type} (l : List (Option α)) (i j : Nat) (v : Option α)
    (h : i ≤ l.length) (hj : j < i) : (store l i v).get? j = l.get? j := by
  rw [store_le_length l i v h]
  simp only [List.get?_eq_getElem?]
  rw [List.getElem?_append_left (by rw [List.length_take]; omega)]
  exact List.getElem?_take_of_lt hj

theorem store_get_at {α : Type} (l : List (Option α)) (i : Nat) (v : Option α)
    (h : i ≤ l.length) : (store l i v).get? i = some v := by
  rw [store_le_length l i v h]
  simp only [List.get?_eq_getElem?]
  have hl : (l.take i).length = i := by rw [List.length_take]; omega
  rw [List.getElem?_append_right (by omega), hl]
  simp

theorem store_length {α : Type} (l : List (Option α)) (i : Nat) (v : Option α)
    (h : i ≤ l.length) : i + 1 ≤ (store l i v).length := by
  rw [store_le_length l i v h]
  simp only [List.length_append, List.length_take, List.length_cons, List.length_drop]
  omega

theorem segment_loop_parsed (fuel : Nat) (cl : cmd_list_t) (scp : List Char)
    (hlen : cl.size ≤ cl.commands.length) (h : holds_parsed_commands cl) :
    (segment_loop fuel cl scp).size ≤ (segment_loop fuel cl scp).commands.length
    ∧ holds_parsed_commands (segment_loop fuel cl scp) := by
  induction fuel generalizing cl scp with
  | zero => exact ⟨hlen, h⟩
  | succ fuel ih =>
    simp only [segment_loop]
    cases hs : strtok_r ['&'] scp with
    | none => exact ⟨hlen, h⟩
    | some p =>
      obtain ⟨sc_line, scp1⟩ := p
      have e1 := ensure_cmd_list_capacity_size cl
      have e2 := ensure_cmd_list_capacity_commands cl
      obtain ⟨toks, stale, hshape⟩ := segment_cmd_shape (ensure_cmd_list_capacity cl) sc_line
      have hle : (ensure_cmd_list_capacity cl).size
          ≤ (ensure_cmd_list_capacity cl).commands.length := by rw [e1, e2]; exact hlen
      apply ih
      · exact store_length _ _ _ hle
      · intro i hi
        simp only at hi ⊢
        by_cases hlt : i < (ensure_cmd_list_capacity cl).size
        · rw [store_get_below _ _ _ _ hle hlt, e2]
          exact h i (by rw [← e1]; exact hlt)
        · have heq : i = (ensure_cmd_list_capacity cl).size := by omega
          rw [heq, store_get_at _ _ _ hle, hshape]
          exact ⟨toks, stale, _, rfl⟩

/-- The list that lines 245-274 of `start_shell` hand to the dispatch loop holds parsed
commands in all its `size` slots, so `run_line` never meets a `NULL` command or a `NULL`
token below `size`. -/
theorem parse_line_parsed (cl : cmd_list_t) (input_line : List Char) :
    holds_parsed_commands (parse_line cl input_line) := by
  have h := (segment_loop_parsed (input_line.length + 1) { cl with size := 0 } input_line
    (Nat.zero_le _) (fun i hi => absurd hi (Nat.not_lt_zero i))).2
  simp only [parse_line]
  split
  · intro i hi
    exact h i (by simp only at hi; omega)
  · exact h

end Wish
